import Mathlib

/-!
Verification development for the openstack-loadbalancer-info repository.

The Python modules `loadbalancer_info.py` and `main.py` are shallowly embedded
below. Trees built through the formatter are modelled as rose trees; the
formatter operation `add_to_tree(tree, content)` appends a child node labelled
`content` to the given node and returns the new child (this is what
`RichOutputFormatter._add_to_tree` and `PlainOutputFormatter._add_to_tree` do).
The OpenStack API collaborator is a record of lookup functions; a lookup that
may raise is modelled with `Except String`, a lookup whose not-found case is a
`None` return is modelled with `Option`. Every API invocation made by the
embedded code is recorded in a log of `ApiCall` events so that claims about
which lookups are issued, and how many member fetches are in flight, can be
stated.
-/

/-- A rose tree: the shape shared by Rich trees and the plain formatter's
dict-based trees (a label plus an ordered list of children). -/
inductive RTree where
  | node (label : String) (children : List RTree)

def RTree.label : RTree → String
  | .node l _ => l

def RTree.children : RTree → List RTree
  | .node _ c => c

/-- Listener resource: the fields read by `loadbalancer_info.py`, plus `attrs`
modelling the `to_dict()` view used in detail mode. `default_pool_id` is
`Option`al; the Python code tests it for truthiness. -/
structure Listener where
  id : String
  name : String
  protocol : String
  protocol_port : Nat
  provisioning_status : String
  operating_status : String
  default_pool_id : Option String
  attrs : List (String × String)
deriving Repr, DecidableEq

/-- A reference carried in `lb.listeners` and `pool.members`: the code only
reads the `"id"` key of each dict. -/
structure Ref where
  id : String
deriving Repr, DecidableEq

/-- Pool resource fields read by the code. -/
structure Pool where
  id : String
  protocol : String
  lb_algorithm : String
  provisioning_status : String
  operating_status : String
  health_monitor_id : Option String
  members : List Ref
  attrs : List (String × String)
deriving Repr, DecidableEq

/-- Health monitor resource fields read by the code. -/
structure HealthMonitor where
  id : String
  hm_type : String
  http_method : String
  expected_codes : String
  url_path : String
  provisioning_status : String
  operating_status : String
  attrs : List (String × String)
deriving Repr, DecidableEq

/-- Member resource fields read by the code. -/
structure Member where
  id : String
  address : String
  protocol_port : Nat
  weight : Nat
  backup : Bool
  provisioning_status : String
  operating_status : String
  attrs : List (String × String)
deriving Repr, DecidableEq

/-- Load balancer resource fields read by the code. -/
structure LoadBalancer where
  id : String
  name : String
  vip_address : String
  provisioning_status : String
  operating_status : String
  tags : List String
  listeners : List Ref
  attrs : List (String × String)
deriving Repr, DecidableEq

/-- Image resource: `id` and `name` are the only fields read. -/
structure Image where
  id : String
  name : String
deriving Repr, DecidableEq

/-- The collaborators of `LoadBalancerInfo`: the `OpenStackAPI` retrieval
methods it calls, and the formatter's `format_status`. `retrieve_member` is
given an `Except` result type because claim analysis concerns an exception
raised inside a member fetch; the other finders return the resource or `None`
(`find_listener` and friends in `openstack_api.py`). -/
structure Env where
  retrieve_listener : String → Option Listener
  retrieve_pool : String → Option Pool
  retrieve_health_monitor : String → Option HealthMonitor
  retrieve_member : String → String → Except String (Option Member)
  retrieve_images : List String → List Image
  format_status : String → String

/-- Log of API invocations performed by the embedded code. A member fetch is
recorded as a start/done pair delimiting the `with status: retrieve_member`
block, so in-flight counts can be computed from the log. -/
inductive ApiCall where
  | listener (id : String)
  | pool (id : String)
  | healthMonitor (id : String)
  | memberStart (id : String) (pool_id : String)
  | memberDone (id : String) (pool_id : String)
  | images (ids : List String)
deriving Repr, DecidableEq

/-- Python truthiness of an optional string (`None` and the empty string are
falsy). -/
def truthyStr : Option String → Bool
  | none => false
  | some s => decide (s ≠ "")

/-- Lookup in the `to_dict()` association list (dicts have unique keys; the
first binding is the dict binding). -/
def dictGet (attrs : List (String × String)) (k : String) : String :=
  match attrs.find? (fun p => p.1 = k) with
  | some p => p.2
  | none => ""

/-- Lexicographic comparison of two character lists by code point, the order
Python uses to compare strings. -/
def charsLe : List Char → List Char → Bool
  | [], _ => true
  | _ :: _, [] => false
  | a :: as, b :: bs =>
      if a = b then charsLe as bs else Nat.ble a.toNat b.toNat

/-- Lexicographic string comparison by code point. -/
def strLe (a b : String) : Bool :=
  charsLe a.data b.data

/-- Ordered insertion of a key into an already sorted key list. -/
def insertSorted (x : String) : List String → List String
  | [] => [x]
  | y :: ys => if strLe y x then y :: insertSorted x ys else x :: y :: ys

/-- Ascending sort of the attribute keys, modelling Python's `sorted` over
the (unique) keys of `obj.to_dict()`. -/
def sortKeys : List String → List String
  | [] => []
  | x :: xs => insertSorted x (sortKeys xs)

/-- Embedding of `_add_all_attr_to_tree`: one child per attribute, keys in
sorted order, each labelled `"key: value"`. -/
def attrNodes (attrs : List (String × String)) : List RTree :=
  (sortKeys (attrs.map Prod.fst)).map
    (fun k => RTree.node (k ++ ": " ++ dictGet attrs k) [])

/-- The placeholder label `f"[b green]{label}:[/] None"` used by
`_retrieve_and_add_to_tree` when a lookup returns `None`. -/
def placeholderLabel (label : String) : String :=
  "[b green]" ++ label ++ ":[/] None"

/-- Embedding of `LoadBalancerInfo._retrieve_and_add_to_tree`: call the
retrieval method; if the resource is found append a formatted node (with the
attribute children when in detail mode) to the given node's child list and
return the resource, otherwise append the placeholder and return `None`. The
Python method mutates the node the `tree` handle points at; here the child
list of that node is threaded functionally. -/
def retrieveAndAddToTree {α : Type} (details : Bool) (label : String)
    (resource_id : String) (retrieve_method : String → Option α)
    (tree : List RTree) (format_fn : α → String)
    (to_dict : α → List (String × String)) : List RTree × Option α :=
  match retrieve_method resource_id with
  | some resource =>
      (tree ++ [RTree.node (format_fn resource)
        (if details then attrNodes (to_dict resource) else [])], some resource)
  | none => (tree ++ [RTree.node (placeholderLabel label) []], none)

/-- The listener label built by `format_listener` inside `add_listener_info`. -/
def formatListener (env : Env) (l : Listener) : String :=
  "[b green]Listener:[/] [b white]" ++ l.id ++ "[/] ([blue b]" ++ l.name ++
  "[/]) port:[cyan]" ++ l.protocol ++ "/" ++ toString l.protocol_port ++
  "[/] prov_status:" ++ env.format_status l.provisioning_status ++
  " oper_status:" ++ env.format_status l.operating_status

/-- The pool label built by `format_pool` inside `add_pool_info`. -/
def formatPool (env : Env) (p : Pool) : String :=
  "[b green]Pool:[/] [b white]" ++ p.id ++ "[/] protocol:[magenta]" ++
  p.protocol ++ "[/magenta] algorithm:[magenta]" ++ p.lb_algorithm ++
  "[/magenta] prov_status:" ++ env.format_status p.provisioning_status ++
  " oper_status:" ++ env.format_status p.operating_status

/-- The health monitor label built by `format_health_monitor`. -/
def formatHealthMonitor (env : Env) (hm : HealthMonitor) : String :=
  "[b green]Health Monitor:[/] [b white]" ++ hm.id ++ "[/] type:[magenta]" ++
  hm.hm_type ++ "[/magenta] http_method:[magenta]" ++ hm.http_method ++
  "[/magenta] http_codes:[magenta]" ++ hm.expected_codes ++
  "[/magenta] url_path:[magenta]" ++ hm.url_path ++
  "[/magenta] prov_status:" ++ env.format_status hm.provisioning_status ++
  " oper_status:" ++ env.format_status hm.operating_status

/-- The member label built by `format_member` inside `add_pool_members`. -/
def formatMember (env : Env) (m : Member) : String :=
  "[b green]Member:[/] [b white]" ++ m.id ++ "[/] IP:[magenta]" ++ m.address ++
  "[/magenta] port:[magenta]" ++ toString m.protocol_port ++
  "[/magenta] weight:[magenta]" ++ toString m.weight ++
  "[/magenta] backup:[magenta]" ++ toString m.backup ++
  "[/magenta] prov_status:" ++ env.format_status m.provisioning_status ++
  " oper_status:" ++ env.format_status m.operating_status

/-- Embedding of `add_health_monitor_info`: one `retrieve_health_monitor`
call, then `_retrieve_and_add_to_tree` on the node passed as `pool_tree`
(which in `add_pool_info` is the caller's `tree`). Returns the log and the
updated child list of that node. -/
def add_health_monitor_info (env : Env) (details : Bool) (pool_tree : List RTree)
    (health_monitor_id : String) : List ApiCall × List RTree :=
  ([ApiCall.healthMonitor health_monitor_id],
   (retrieveAndAddToTree details "Health Monitor" health_monitor_id
     env.retrieve_health_monitor pool_tree (formatHealthMonitor env)
     HealthMonitor.attrs).1)

/-- Embedding of `add_pool_members`: a sequential `for` loop over the member
references; each iteration performs one complete `retrieve_member` call inside
a `with status:` block (logged as a start/done pair) before the next iteration
begins. There is no `try`, so an exception raised by a fetch propagates,
aborting the loop. On a normal return, the already-retrieved member is handed
to `_retrieve_and_add_to_tree` through `return_member`. -/
def add_pool_members (env : Env) (details : Bool) (pool_tree : List RTree)
    (pool_id : String) : List Ref → List ApiCall × Except String (List RTree)
  | [] => ([], Except.ok pool_tree)
  | m :: rest =>
    match env.retrieve_member m.id pool_id with
    | Except.error e =>
        ([ApiCall.memberStart m.id pool_id, ApiCall.memberDone m.id pool_id],
         Except.error e)
    | Except.ok os_m =>
        let tree' := (retrieveAndAddToTree details "Member" m.id (fun _ => os_m)
          pool_tree (formatMember env) Member.attrs).1
        let r := add_pool_members env details tree' pool_id rest
        (ApiCall.memberStart m.id pool_id :: ApiCall.memberDone m.id pool_id :: r.1,
         r.2)

/-- Embedding of `add_pool_info`: look up the pool and attach it (or its
placeholder) to the node passed as `tree`; when found, attach the health
monitor (or its placeholder) to that same node, then the members (or a
placeholder when the member list is empty), again to that same node. The
optional ids are tested with Python truthiness. -/
def add_pool_info (env : Env) (details : Bool) (tree : List RTree)
    (pool_id : String) : List ApiCall × Except String (List RTree) :=
  let step := retrieveAndAddToTree details "Pool" pool_id env.retrieve_pool
    tree (formatPool env) Pool.attrs
  match step.2 with
  | none => ([ApiCall.pool pool_id], Except.ok step.1)
  | some pool =>
    let hmStep :=
      if truthyStr pool.health_monitor_id then
        add_health_monitor_info env details step.1 (pool.health_monitor_id.getD "")
      else
        ([], step.1 ++ [RTree.node (placeholderLabel "Health Monitor") []])
    match pool.members with
    | [] =>
        (ApiCall.pool pool_id :: hmStep.1,
         Except.ok (hmStep.2 ++ [RTree.node (placeholderLabel "Member") []]))
    | m :: rest =>
        let memStep := add_pool_members env details hmStep.2 pool.id (m :: rest)
        (ApiCall.pool pool_id :: (hmStep.1 ++ memStep.1), memStep.2)

/-- Embedding of `add_listener_info`: look up the listener and attach it (or
its placeholder) to `self.lb_tree`, the root's child list. When the listener
is found: if `default_pool_id` is truthy, call `add_pool_info` with
`self.lb_tree` — the root — as the target node; otherwise append the
`"Pool: None"` placeholder, again to the root. -/
def add_listener_info (env : Env) (details : Bool) (lb_tree : List RTree)
    (listener_id : String) : List ApiCall × Except String (List RTree) :=
  let step := retrieveAndAddToTree details "Listener" listener_id
    env.retrieve_listener lb_tree (formatListener env) Listener.attrs
  match step.2 with
  | none => ([ApiCall.listener listener_id], Except.ok step.1)
  | some l =>
    if truthyStr l.default_pool_id then
      let poolStep := add_pool_info env details step.1 (l.default_pool_id.getD "")
      (ApiCall.listener listener_id :: poolStep.1, poolStep.2)
    else
      ([ApiCall.listener listener_id],
       Except.ok (step.1 ++ [RTree.node (placeholderLabel "Pool") []]))

/-- The root label built by `create_lb_tree`. -/
def lbLabel (env : Env) (lb : LoadBalancer) : String :=
  "LB:[bright_yellow] " ++ lb.id ++ "[/] vip:[bright_cyan]" ++ lb.vip_address ++
  "[/] prov_status:" ++ env.format_status lb.provisioning_status ++
  " oper_status:" ++ env.format_status lb.operating_status ++
  " tags:[magenta]" ++ toString lb.tags ++ "[/]"

/-- Embedding of `create_lb_tree`: the root node, carrying the attribute
children when in detail mode. -/
def create_lb_tree (env : Env) (details : Bool) (lb : LoadBalancer) : RTree :=
  RTree.node (lbLabel env lb) (if details then attrNodes lb.attrs else [])

/-- The `for listener in self.lb.listeners` loop of `display_lb_info`:
`add_listener_info` for each reference in order; an exception propagates and
stops the loop. -/
def add_listeners (env : Env) (details : Bool) (lb_tree : List RTree) :
    List Ref → List ApiCall × Except String (List RTree)
  | [] => ([], Except.ok lb_tree)
  | r :: rest =>
    let step := add_listener_info env details lb_tree r.id
    match step.2 with
    | Except.error e => (step.1, Except.error e)
    | Except.ok tree' =>
        let next := add_listeners env details tree' rest
        (step.1 ++ next.1, next.2)

/-- Embedding of `display_lb_info`: build the root with `create_lb_tree`; if
`lb.listeners` is empty attach the single `"Listener: None"` placeholder to
the root, otherwise process each listener reference in order. -/
def display_lb_info (env : Env) (details : Bool) (lb : LoadBalancer) :
    List ApiCall × Except String RTree :=
  let root := create_lb_tree env details lb
  match lb.listeners with
  | [] =>
      ([], Except.ok (RTree.node root.label
        (root.children ++ [RTree.node (placeholderLabel "Listener") []])))
  | r :: rest =>
      let step := add_listeners env details root.children (r :: rest)
      (step.1, step.2.map (fun cs => RTree.node root.label cs))

/-- Keys of the `images_name` dict (modelled as an association list whose
first binding for a key is the dict binding). -/
def dkeys (c : List (String × String)) : List String :=
  c.map Prod.fst

/-- First-binding lookup in the dict model. -/
def dlookup (c : List (String × String)) (k : String) : Option String :=
  (c.find? (fun p => p.1 = k)).map Prod.snd

/-- Python dict assignment `c[k] = v`: replace the binding when the key is
present, otherwise append a new binding. -/
def dinsert (c : List (String × String)) (k v : String) : List (String × String) :=
  if k ∈ dkeys c then
    c.map (fun p => if p.1 = k then (k, v) else p)
  else
    c ++ [(k, v)]

/-- Embedding of `AmphoraInfo.get_images_name`: filter the requested ids down
to those not already in the `images_name` cache; when that subset is
non-empty, issue one `retrieve_images` call for exactly that subset and store
each returned image's `id`-to-`name` binding. Returns the updated cache and
the argument of the batched lookup (`none` when no lookup was issued). This
method is the only code in the repository that writes to
`AmphoraInfo.images_name`. -/
def get_images_name (retrieve_images : List String → List Image)
    (images_name : List (String × String)) (image_ids : List String) :
    List (String × String) × Option (List String) :=
  let new_img_ids := image_ids.filter (fun i => !(decide (i ∈ dkeys images_name)))
  match new_img_ids with
  | [] => (images_name, none)
  | _ :: _ =>
      ((retrieve_images new_img_ids).foldl
        (fun c img => dinsert c img.id img.name) images_name,
       some new_img_ids)

/-- The hard ceiling on `--max-workers` from `main.py`. -/
def MAX_WORKERS_LIMIT : Int := 32

/-- Embedding of the `_check_value` closure produced by
`validate_int_range(min_val, max_val)` in `main.py`: `none` models a string
that `int()` rejects; an in-range value is returned, anything else raises
`ArgumentTypeError`. -/
def check_value (min_val max_val : Int) (value : Option Int) : Except String Int :=
  match value with
  | none => Except.error "Invalid integer"
  | some v =>
      if v < min_val ∨ v > max_val then
        Except.error ("Value must be between " ++ toString min_val ++ " and " ++
          toString max_val)
      else
        Except.ok v

/-- Running member-fetch in-flight counts along an API-call log, starting from
`n` fetches in flight: a `memberStart` raises the count, a `memberDone` lowers
it, other calls leave it unchanged. The list records the count before each
event and after the last one. -/
def inFlightList (n : Nat) : List ApiCall → List Nat
  | [] => [n]
  | e :: rest =>
      n :: inFlightList
        (match e with
         | ApiCall.memberStart _ _ => n + 1
         | ApiCall.memberDone _ _ => n - 1
         | _ => n) rest

/-- The maximum number of member fetches simultaneously in flight during a
run that produced the given log. -/
def maxInFlight (log : List ApiCall) : Nat :=
  (inFlightList 0 log).foldl max 0

/-- Modelled from the spec: "member lookups for one pool are dispatched
concurrently to a bounded worker pool whose size is
min(configured_max_workers, member_count)". Dispatching the fetches
concurrently to a pool that has at least two workers for at least two queued
member fetches means that at some point at least two fetches are
simultaneously in flight. -/
def dispatchedConcurrently (max_workers : Int) (member_count : Nat)
    (log : List ApiCall) : Prop :=
  2 ≤ min max_workers (member_count : Int) → ∃ c ∈ inFlightList 0 log, 2 ≤ c

/-- The pool descent as invoked under a full parsed configuration. `main.py`
parses `--no-members` into `args.no_members` and stores it in the
`ProcessingContext` it tries to build, but `LoadBalancerInfo.__init__` accepts
only `openstack_api`, `lb`, `details` and `formatter`, and no method of
`loadbalancer_info.py` reads a skip-members flag, so the descent is one and
the same function whatever the flag's value. -/
def add_pool_info_with_config (no_members : Bool) (env : Env) (details : Bool)
    (tree : List RTree) (pool_id : String) :
    List ApiCall × Except String (List RTree) :=
  add_pool_info env details tree pool_id

/-- The names bound at module level by `loadbalancer_info.py` (its two class
statements). -/
def loadbalancer_info_module_defs : List String :=
  ["LoadBalancerInfo", "AmphoraInfo"]

/-- The names `main.py` line 45 imports from `.loadbalancer_info`. -/
def main_imports_from_loadbalancer_info : List String :=
  ["AmphoraInfo", "LoadBalancerInfo", "ProcessingContext"]

/-- Modelled from Python import semantics: `from m import a, b, c` raises
`ImportError` as soon as one of the names is not bound in module `m`, before
any statement of the importing module runs. -/
def loadbalancer_info_import_fails : Bool :=
  main_imports_from_loadbalancer_info.any
    (fun n => !(loadbalancer_info_module_defs.contains n))

/-- The parameters `LoadBalancerInfo.__init__` (and the identical
`AmphoraInfo.__init__`) require besides `self`. -/
def loadBalancerInfoInitParams : List String :=
  ["openstack_api", "lb", "details", "formatter"]

/-- Number of positional arguments `main()` passes when it constructs
`LoadBalancerInfo(lb, context)` and `AmphoraInfo(lb, context)`. -/
def mainConstructorArgCount : Nat := 2

/-- Substring test, Python's `needle in hay` on strings. -/
def strContains (hay needle : String) : Bool :=
  decide (needle.data <:+: hay.data)

/-- The load balancer record as consumed by the name filter in
`query_openstack_lbs` (only `name` is read there). -/
structure LBRec where
  name : String
deriving Repr, DecidableEq

/-- Embedding of the name-filtering step of `query_openstack_lbs`: when
`args.name` is truthy, keep the load balancers whose `name` contains the
filter string as a substring; otherwise keep the whole fetched list. -/
def filter_lbs_by_name (args_name : Option String) (lbs : List LBRec) : List LBRec :=
  if truthyStr args_name then
    lbs.filter (fun lb => strContains lb.name (args_name.getD ""))
  else
    lbs

/-- How many of the recorded batched image lookups contain the given id. -/
def countLookupsFor (id : String) (lookups : List (Option (List String))) : Nat :=
  lookups.foldl
    (fun n q => match q with
      | some l => if l.contains id then n + 1 else n
      | none => n) 0

/-- An image service holding no images: every batched lookup comes back
empty. -/
def emptyImageLookup : List String → List Image := fun _ => []

/-- A listener that has no default pool. -/
def listenerNoPool : Listener :=
  { id := "l1", name := "web", protocol := "HTTP", protocol_port := 80,
    provisioning_status := "ACTIVE", operating_status := "ONLINE",
    default_pool_id := none, attrs := [] }

/-- A listener whose default pool is `p1`. -/
def listenerWithPool : Listener :=
  { id := "l2", name := "api", protocol := "HTTP", protocol_port := 8080,
    provisioning_status := "ACTIVE", operating_status := "ONLINE",
    default_pool_id := some "p1", attrs := [] }

/-- A pool with one member and no health monitor. -/
def pool1 : Pool :=
  { id := "p1", protocol := "HTTP", lb_algorithm := "ROUND_ROBIN",
    provisioning_status := "ACTIVE", operating_status := "ONLINE",
    health_monitor_id := none, members := [⟨"m1"⟩], attrs := [] }

/-- A pool with no members and no health monitor. -/
def poolEmptyMembers : Pool :=
  { id := "p2", protocol := "HTTP", lb_algorithm := "ROUND_ROBIN",
    provisioning_status := "ACTIVE", operating_status := "ONLINE",
    health_monitor_id := none, members := [], attrs := [] }

/-- A concrete environment: two listeners, two pools, every member lookup
returns "not found" without raising, no health monitors, an empty image
service, and the plain formatter's identity `format_status`. -/
def envA : Env :=
  { retrieve_listener := fun i =>
      if i = "l1" then some listenerNoPool
      else if i = "l2" then some listenerWithPool
      else none,
    retrieve_pool := fun i =>
      if i = "p1" then some pool1
      else if i = "p2" then some poolEmptyMembers
      else none,
    retrieve_health_monitor := fun _ => none,
    retrieve_member := fun _ _ => Except.ok none,
    retrieve_images := fun _ => [],
    format_status := fun s => s }

/-- An environment whose member lookup raises for member `m1` and returns
"not found" for every other member. -/
def envErr : Env :=
  { retrieve_listener := fun _ => none,
    retrieve_pool := fun _ => none,
    retrieve_health_monitor := fun _ => none,
    retrieve_member := fun i _ =>
      if i = "m1" then Except.error "boom" else Except.ok none,
    retrieve_images := fun _ => [],
    format_status := fun s => s }

/-- An environment where every lookup resolves to absent. -/
def envNone : Env :=
  { retrieve_listener := fun _ => none,
    retrieve_pool := fun _ => none,
    retrieve_health_monitor := fun _ => none,
    retrieve_member := fun _ _ => Except.ok none,
    retrieve_images := fun _ => [],
    format_status := fun s => s }

/-- An image service that knows image `b` only. -/
def imageLookupB : List String → List Image :=
  fun ids => if ids.contains "b" then [{ id := "b", name := "bionic" }] else []

/-- A load balancer with no listeners and a one-entry detail dict. -/
def lbNoListeners : LoadBalancer :=
  { id := "lb1", name := "front", vip_address := "10.0.0.1",
    provisioning_status := "ACTIVE", operating_status := "ONLINE",
    tags := [], listeners := [], attrs := [("id", "lb1")] }

theorem foldl_max_le (n : Nat) :
    ∀ (l : List Nat) (a : Nat), a ≤ n → (∀ c ∈ l, c ≤ n) → l.foldl max a ≤ n := by
  intro l
  induction l with
  | nil => intro a ha _; simpa using ha
  | cons c rest ih =>
      intro a ha hl
      simp only [List.foldl_cons]
      exact ih (max a c) (by
        have := hl c (by simp)
        omega) (fun d hd => hl d (by simp [hd]))

theorem inFlightList_memberStart (n : Nat) (i p : String) (rest : List ApiCall) :
    inFlightList n (ApiCall.memberStart i p :: rest) = n :: inFlightList (n + 1) rest :=
  rfl

theorem inFlightList_memberDone (n : Nat) (i p : String) (rest : List ApiCall) :
    inFlightList n (ApiCall.memberDone i p :: rest) = n :: inFlightList (n - 1) rest :=
  rfl

theorem inFlight_add_pool_members_le_one (env : Env) (details : Bool)
    (pid : String) :
    ∀ (ms : List Ref) (tree : List RTree),
      ∀ c ∈ inFlightList 0 (add_pool_members env details tree pid ms).1, c ≤ 1 := by
  intro ms
  induction ms with
  | nil => intro tree c hc; simp [add_pool_members, inFlightList] at hc; omega
  | cons m rest ih =>
      intro tree c hc
      simp only [add_pool_members] at hc
      cases h : env.retrieve_member m.id pid with
      | error e =>
          rw [h] at hc
          simp [inFlightList_memberStart, inFlightList_memberDone,
            inFlightList] at hc
          omega
      | ok os_m =>
          rw [h] at hc
          simp only [inFlightList_memberStart, inFlightList_memberDone,
            List.mem_cons] at hc
          rcases hc with hc | hc | hc
          · omega
          · omega
          · exact ih _ c hc

theorem maxInFlight_add_pool_members_le_one (env : Env) (details : Bool)
    (pid : String) (ms : List Ref) (tree : List RTree) :
    maxInFlight (add_pool_members env details tree pid ms).1 ≤ 1 :=
  foldl_max_le 1 _ 0 (by omega)
    (inFlight_add_pool_members_le_one env details pid ms tree)

/-- C2 (counterexample): member fetches are not dispatched concurrently. For
the concrete pool run with three members and configured max-workers 4 — where
the spec's worker pool would have size min(4, 3) = 3 — the in-flight count
recorded by the code's fetch loop never reaches 2: `add_pool_members` is a
plain sequential `for` loop, each fetch completing before the next starts,
and `max_workers` is not even an input of the member-processing code. -/
theorem C2_counterexample :
    ¬ dispatchedConcurrently 4 3
      (add_pool_members envA false [] "p1" [⟨"m1"⟩, ⟨"m2"⟩, ⟨"m3"⟩]).1 := by
  unfold dispatchedConcurrently
  decide

/-- C2 (amended): member fetches are performed strictly sequentially, so at
most one is in flight at any time; since `--max-workers` values are validated
by `validate_int_range(1, MAX_WORKERS_LIMIT)` to be at least 1, the in-flight
count trivially never exceeds min(W, N) — but no worker pool exists and the
configured value is never consulted by the fetch loop. -/
theorem C2_sequential_bound (env : Env) (details : Bool) (tree : List RTree)
    (pid : String) (ms : List Ref) (v : Option Int) (W : Int)
    (hW : check_value 1 MAX_WORKERS_LIMIT v = Except.ok W) :
    (maxInFlight (add_pool_members env details tree pid ms).1 : Int) ≤
      min W (ms.length : Int) := by
  have h1 : 1 ≤ W := by
    unfold check_value at hW
    cases v with
    | none => simp at hW
    | some x =>
        by_cases h : x < 1 ∨ x > MAX_WORKERS_LIMIT
        · simp [h] at hW
        · simp [h] at hW
          push_neg at h
          omega
  cases ms with
  | nil =>
      have hz : maxInFlight (add_pool_members env details tree pid
          ([] : List Ref)).1 = 0 := rfl
      simp only [hz, List.length_nil, Nat.cast_zero, Nat.cast_ofNat]
      omega
  | cons m rest =>
      have hm := maxInFlight_add_pool_members_le_one env details pid
        (m :: rest) tree
      have hm' : (maxInFlight (add_pool_members env details tree pid
          (m :: rest)).1 : Int) ≤ 1 := by exact_mod_cast hm
      have hlen : (1 : Int) ≤ (((m :: rest) : List Ref).length : Int) := by
        exact_mod_cast List.length_pos.mpr (List.cons_ne_nil m rest)
      omega

/-- C2 (witness): the amended bound at a concrete accepted configuration
(max-workers 4, three members). -/
theorem C2_witness :
    check_value 1 MAX_WORKERS_LIMIT (some 4) = Except.ok 4 ∧
    (maxInFlight (add_pool_members envA false [] "p1"
      [⟨"m1"⟩, ⟨"m2"⟩, ⟨"m3"⟩]).1 : Int) ≤
      min 4 (([⟨"m1"⟩, ⟨"m2"⟩, ⟨"m3"⟩] : List Ref).length : Int) :=
  ⟨rfl, C2_sequential_bound envA false [] "p1" [⟨"m1"⟩, ⟨"m2"⟩, ⟨"m3"⟩]
    (some 4) 4 rfl⟩

theorem add_pool_info_not_found (env : Env) (details : Bool) (tree : List RTree)
    (pid : String) (h : env.retrieve_pool pid = none) :
    add_pool_info env details tree pid =
      ([ApiCall.pool pid],
       Except.ok (tree ++ [RTree.node (placeholderLabel "Pool") []])) := by
  simp [add_pool_info, retrieveAndAddToTree, h]

theorem add_listener_info_not_found (env : Env) (details : Bool)
    (tree : List RTree) (lid : String) (h : env.retrieve_listener lid = none) :
    add_listener_info env details tree lid =
      ([ApiCall.listener lid],
       Except.ok (tree ++ [RTree.node (placeholderLabel "Listener") []])) := by
  simp [add_listener_info, retrieveAndAddToTree, h]

theorem add_health_monitor_info_not_found (env : Env) (details : Bool)
    (tree : List RTree) (hid : String)
    (h : env.retrieve_health_monitor hid = none) :
    add_health_monitor_info env details tree hid =
      ([ApiCall.healthMonitor hid],
       tree ++ [RTree.node (placeholderLabel "Health Monitor") []]) := by
  simp [add_health_monitor_info, retrieveAndAddToTree, h]

theorem add_health_monitor_info_snd_append (env : Env) (details : Bool)
    (tree : List RTree) (hid : String) :
    ∃ n, (add_health_monitor_info env details tree hid).2 = tree ++ [n] := by
  unfold add_health_monitor_info retrieveAndAddToTree
  cases env.retrieve_health_monitor hid <;> exact ⟨_, rfl⟩

theorem add_pool_members_ok_append (env : Env) (details : Bool) (pid : String) :
    ∀ (ms : List Ref) (tree out : List RTree),
      (add_pool_members env details tree pid ms).2 = Except.ok out →
      ∃ s, out = tree ++ s := by
  intro ms
  induction ms with
  | nil =>
      intro tree out h
      simp only [add_pool_members, Except.ok.injEq] at h
      exact ⟨[], by simp [h]⟩
  | cons m rest ih =>
      intro tree out h
      simp only [add_pool_members] at h
      cases hr : env.retrieve_member m.id pid with
      | error e => rw [hr] at h; simp at h
      | ok os_m =>
          rw [hr] at h
          simp only at h
          rcases ih _ _ h with ⟨s, hs⟩
          cases os_m with
          | none =>
              exact ⟨RTree.node (placeholderLabel "Member") [] :: s, by
                simpa [retrieveAndAddToTree] using hs⟩
          | some mem =>
              exact ⟨RTree.node (formatMember env mem)
                  (if details then attrNodes mem.attrs else []) :: s, by
                simpa [retrieveAndAddToTree] using hs⟩

theorem add_pool_info_ok_append (env : Env) (details : Bool) (tree : List RTree)
    (pid : String) (out : List RTree)
    (h : (add_pool_info env details tree pid).2 = Except.ok out) :
    ∃ s, out = tree ++ s := by
  unfold add_pool_info at h
  cases hp : env.retrieve_pool pid with
  | none =>
      simp only [retrieveAndAddToTree, hp, Except.ok.injEq] at h
      exact ⟨[RTree.node (placeholderLabel "Pool") []], h.symm⟩
  | some pool =>
      simp only [retrieveAndAddToTree, hp] at h
      set base := tree ++ [RTree.node (formatPool env pool)
        (if details then attrNodes pool.attrs else [])] with hbase
      by_cases hhm : truthyStr pool.health_monitor_id = true
      all_goals simp only [hhm, if_true, if_false] at h
      · rcases add_health_monitor_info_snd_append env details base
            (pool.health_monitor_id.getD "") with ⟨n, hn⟩
        cases hms : pool.members with
        | nil =>
            rw [hms] at h
            simp only [Except.ok.injEq] at h
            refine ⟨[RTree.node (formatPool env pool)
              (if details then attrNodes pool.attrs else []), n,
              RTree.node (placeholderLabel "Member") []], ?_⟩
            rw [← h, hn, hbase]
            simp
        | cons m rest =>
            rw [hms] at h
            simp only at h
            rcases add_pool_members_ok_append env details pool.id (m :: rest)
                _ _ h with ⟨s, hs⟩
            rw [hn, hbase] at hs
            exact ⟨[RTree.node (formatPool env pool)
              (if details then attrNodes pool.attrs else [])] ++ [n] ++ s, by
              simp [hs]⟩
      · simp only [Bool.not_eq_true] at hhm
        cases hms : pool.members with
        | nil =>
            rw [hms] at h
            simp only [Except.ok.injEq] at h
            refine ⟨[RTree.node (formatPool env pool)
              (if details then attrNodes pool.attrs else []),
              RTree.node (placeholderLabel "Health Monitor") [],
              RTree.node (placeholderLabel "Member") []], ?_⟩
            rw [← h, hbase]
            simp
        | cons m rest =>
            rw [hms] at h
            simp only at h
            rcases add_pool_members_ok_append env details pool.id (m :: rest)
                _ _ h with ⟨s, hs⟩
            rw [hbase] at hs
            exact ⟨[RTree.node (formatPool env pool)
              (if details then attrNodes pool.attrs else []),
              RTree.node (placeholderLabel "Health Monitor") []] ++ s, by
              simp [hs]⟩

/-- C1 (counterexample): for the found listener `l1` with no
`default_pool_id`, processed with an empty root child list, the code produces
two root-level children — the listener node and the `"Pool: None"`
placeholder — and the listener's own node has zero children, not the claimed
single Pool-placeholder child: `add_listener_info` attaches the placeholder
to `self.lb_tree` (the root), not under the listener node. -/
theorem C1_counterexample :
    (add_listener_info envA false [] "l1").2 =
      Except.ok [RTree.node (formatListener envA listenerNoPool) [],
                 RTree.node (placeholderLabel "Pool") []] ∧
    ((add_listener_info envA false [] "l1").2.toOption.getD []).length = 2 ∧
    (((add_listener_info envA false [] "l1").2.toOption.getD []).headD
        (RTree.node "" [])).children.length ≠ 1 :=
  ⟨rfl, rfl, by decide⟩

/-- C1 (amended): for every found listener with no truthy `default_pool_id`
the Pool placeholder is appended to the root child list as a sibling
following the listener node (which itself receives only its detail-mode
attribute children); for every found listener with a truthy `default_pool_id`
the pool descent runs against the root child list extended with the listener
node, and `add_pool_info` only ever appends to the child list it is given —
so the pool node or its placeholder lands under the root, never under the
listener node. -/
theorem C1_amended (env : Env) (details : Bool) (tree : List RTree)
    (lid : String) (l : Listener) (hl : env.retrieve_listener lid = some l) :
    (l.default_pool_id = none →
      add_listener_info env details tree lid =
        ([ApiCall.listener lid],
         Except.ok (tree ++
           [RTree.node (formatListener env l)
              (if details then attrNodes l.attrs else []),
            RTree.node (placeholderLabel "Pool") []]))) ∧
    (∀ pid, l.default_pool_id = some pid → pid ≠ "" →
      (add_listener_info env details tree lid).2 =
        (add_pool_info env details
          (tree ++ [RTree.node (formatListener env l)
            (if details then attrNodes l.attrs else [])]) pid).2) ∧
    (∀ t2 pid2 out, (add_pool_info env details t2 pid2).2 = Except.ok out →
      ∃ s, out = t2 ++ s) := by
  refine ⟨?_, ?_, ?_⟩
  · intro hnone
    simp [add_listener_info, retrieveAndAddToTree, hl, hnone, truthyStr]
  · intro pid hpid hne
    simp [add_listener_info, retrieveAndAddToTree, hl, hpid, truthyStr, hne]
  · exact fun t2 pid2 out h => add_pool_info_ok_append env details t2 pid2 out h

/-- C1 (witness): the amended statement evaluated at the concrete environment
`envA`, once for a listener with no default pool and once for a listener
whose default pool is `p1`. -/
theorem C1_witness :
    add_listener_info envA false [] "l1" =
      ([ApiCall.listener "l1"],
       Except.ok [RTree.node (formatListener envA listenerNoPool) [],
                  RTree.node (placeholderLabel "Pool") []]) ∧
    (add_listener_info envA false [] "l2").2 =
      (add_pool_info envA false
        [RTree.node (formatListener envA listenerWithPool) []] "p1").2 :=
  ⟨(C1_amended envA false [] "l1" listenerNoPool rfl).1 rfl,
   ((C1_amended envA false [] "l2" listenerWithPool rfl).2).1 "p1" rfl
     (by decide)⟩

/-- C3 (counterexample): in the concrete environment where the fetch of
member `m1` raises "boom", processing the member list `[m1, m2]` propagates
the error out of `add_pool_members`: no placeholder embedding the member id
and error text is attached, the sibling fetch for `m2` is never dispatched
(its start event is absent from the log), and the pool's tree construction
does not complete. -/
theorem C3_counterexample :
    add_pool_members envErr false [] "p1" [⟨"m1"⟩, ⟨"m2"⟩] =
      ([ApiCall.memberStart "m1" "p1", ApiCall.memberDone "m1" "p1"],
       Except.error "boom") ∧
    ((add_pool_members envErr false [] "p1"
        [⟨"m1"⟩, ⟨"m2"⟩]).1).contains (ApiCall.memberStart "m2" "p1") = false :=
  ⟨rfl, by decide⟩

/-- C3 (amended): a member fetch that raises propagates its error out of
`add_pool_members`, aborting the remaining member fetches and the pool's tree
construction (there is no `try` around `retrieve_member`); a member fetch
that returns absent without raising yields the placeholder `"Member: None"`,
whose label embeds neither the member id nor any error text, and processing
continues with the remaining members. -/
theorem C3_amended (env : Env) (details : Bool) (tree : List RTree)
    (pid : String) (m : Ref) (rest : List Ref) :
    (∀ e, env.retrieve_member m.id pid = Except.error e →
      add_pool_members env details tree pid (m :: rest) =
        ([ApiCall.memberStart m.id pid, ApiCall.memberDone m.id pid],
         Except.error e)) ∧
    (env.retrieve_member m.id pid = Except.ok none →
      add_pool_members env details tree pid (m :: rest) =
        (ApiCall.memberStart m.id pid :: ApiCall.memberDone m.id pid ::
           (add_pool_members env details
             (tree ++ [RTree.node (placeholderLabel "Member") []]) pid rest).1,
         (add_pool_members env details
           (tree ++ [RTree.node (placeholderLabel "Member") []]) pid rest).2)) := by
  constructor
  · intro e he
    simp [add_pool_members, he]
  · intro hok
    simp [add_pool_members, hok, retrieveAndAddToTree]

/-- C3 (witness): the amended statement at the concrete raising environment
(member `m1` raises, member `m2` resolves to absent). -/
theorem C3_witness :
    add_pool_members envErr false [] "p1" [⟨"m1"⟩] =
      ([ApiCall.memberStart "m1" "p1", ApiCall.memberDone "m1" "p1"],
       Except.error "boom") ∧
    add_pool_members envErr false [] "p1" [⟨"m2"⟩] =
      (ApiCall.memberStart "m2" "p1" :: ApiCall.memberDone "m2" "p1" ::
         (add_pool_members envErr false
           [RTree.node (placeholderLabel "Member") []] "p1" []).1,
       (add_pool_members envErr false
         [RTree.node (placeholderLabel "Member") []] "p1" []).2) :=
  ⟨(C3_amended envErr false [] "p1" ⟨"m1"⟩ []).1 "boom" rfl,
   (C3_amended envErr false [] "p1" ⟨"m2"⟩ []).2 rfl⟩

/-- C4: for every listener, pool, or health-monitor lookup that resolves to
absent, the embedded code appends the explicit `"<Label>: None"` placeholder
node to the child list of the node it was given as parent and returns
normally (an `Except.ok` result — absence never raises); and for a listener
list whose head resolves to absent, processing continues with the remaining
listeners against the tree extended with the placeholder. -/
theorem C4_absence_placeholders (env : Env) (details : Bool) (tree : List RTree)
    (lid pid hid : String) (r : Ref) (rest : List Ref) :
    (env.retrieve_listener lid = none →
      add_listener_info env details tree lid =
        ([ApiCall.listener lid],
         Except.ok (tree ++ [RTree.node (placeholderLabel "Listener") []]))) ∧
    (env.retrieve_pool pid = none →
      add_pool_info env details tree pid =
        ([ApiCall.pool pid],
         Except.ok (tree ++ [RTree.node (placeholderLabel "Pool") []]))) ∧
    (env.retrieve_health_monitor hid = none →
      add_health_monitor_info env details tree hid =
        ([ApiCall.healthMonitor hid],
         tree ++ [RTree.node (placeholderLabel "Health Monitor") []])) ∧
    (env.retrieve_listener r.id = none →
      (add_listeners env details tree (r :: rest)).2 =
        (add_listeners env details
          (tree ++ [RTree.node (placeholderLabel "Listener") []]) rest).2) := by
  refine ⟨add_listener_info_not_found env details tree lid,
          add_pool_info_not_found env details tree pid,
          add_health_monitor_info_not_found env details tree hid, ?_⟩
  intro h
  simp only [add_listeners,
    add_listener_info_not_found env details tree r.id h]

/-- C4 (witness): the placeholder behaviour at the concrete environment in
which every lookup resolves to absent. -/
theorem C4_witness :
    add_listener_info envNone false [] "l9" =
      ([ApiCall.listener "l9"],
       Except.ok [RTree.node (placeholderLabel "Listener") []]) ∧
    add_pool_info envNone false [] "p9" =
      ([ApiCall.pool "p9"],
       Except.ok [RTree.node (placeholderLabel "Pool") []]) ∧
    add_health_monitor_info envNone false [] "h9" =
      ([ApiCall.healthMonitor "h9"],
       [RTree.node (placeholderLabel "Health Monitor") []]) ∧
    (add_listeners envNone false [] [⟨"l9"⟩]).2 =
      (add_listeners envNone false
        [RTree.node (placeholderLabel "Listener") []] []).2 := by
  have h := C4_absence_placeholders envNone false [] "l9" "p9" "h9" ⟨"l9"⟩ []
  exact ⟨h.1 rfl, h.2.1 rfl, h.2.2.1 rfl, h.2.2.2 rfl⟩

theorem memberStart_mem_add_pool_members (env : Env) (details : Bool)
    (tree : List RTree) (pid : String) (m : Ref) (rest : List Ref) :
    ApiCall.memberStart m.id pid ∈
      (add_pool_members env details tree pid (m :: rest)).1 := by
  simp only [add_pool_members]
  cases h : env.retrieve_member m.id pid <;> simp

/-- C7 (counterexample): with the skip-members flag set, for the found pool
`p1` with one member, the code still issues the member lookup (the fetch's
start event is in the log) and still attaches a member-derived node: the
parsed `--no-members` value never reaches `add_pool_info`. -/
theorem C7_counterexample :
    ((add_pool_info_with_config true envA false [] "p1").1).contains
      (ApiCall.memberStart "m1" "p1") = true ∧
    add_pool_info_with_config true envA false [] "p1" =
      add_pool_info_with_config false envA false [] "p1" :=
  ⟨by decide, rfl⟩

/-- C7 (amended): the skip-members flag is parsed by `main.py` but never
consulted by the core: the pool descent is the same function for either flag
value. For every found pool, an empty member list yields a trailing
`"Member: None"` placeholder and no member lookup at all, and a non-empty
member list causes the lookup of its first member to be issued — regardless
of the flag. -/
theorem C7_amended (no_members : Bool) (env : Env) (details : Bool)
    (tree : List RTree) (pid : String) :
    (add_pool_info_with_config no_members env details tree pid =
      add_pool_info env details tree pid) ∧
    (∀ pool, env.retrieve_pool pid = some pool →
      (pool.members = [] →
        (∃ pre, (add_pool_info env details tree pid).2 =
          Except.ok (pre ++ [RTree.node (placeholderLabel "Member") []])) ∧
        (∀ i p2, ApiCall.memberStart i p2 ∉
          (add_pool_info env details tree pid).1)) ∧
      (∀ m rest, pool.members = m :: rest →
        ApiCall.memberStart m.id pool.id ∈
          (add_pool_info env details tree pid).1)) := by
  refine ⟨rfl, ?_⟩
  intro pool hp
  constructor
  · intro hms
    unfold add_pool_info
    simp only [retrieveAndAddToTree, hp]
    rw [hms]
    by_cases hhm : truthyStr pool.health_monitor_id = true <;>
      simp only [hhm, if_true, if_false]
    · exact ⟨⟨_, rfl⟩, by intro i p2; simp [add_health_monitor_info]⟩
    · exact ⟨⟨_, rfl⟩, by intro i p2; simp⟩
  · intro m rest hms
    unfold add_pool_info
    simp only [retrieveAndAddToTree, hp]
    rw [hms]
    by_cases hhm : truthyStr pool.health_monitor_id = true <;>
      simp only [hhm, if_true, if_false] <;>
      simp [memberStart_mem_add_pool_members]

/-- C7 (witness): the amended statement at `envA`, once against the pool with
one member and once against the pool with no members. -/
theorem C7_witness :
    (add_pool_info_with_config true envA false [] "p1" =
      add_pool_info envA false [] "p1") ∧
    ApiCall.memberStart "m1" "p1" ∈ (add_pool_info envA false [] "p1").1 ∧
    (∃ pre, (add_pool_info envA false [] "p2").2 =
      Except.ok (pre ++ [RTree.node (placeholderLabel "Member") []])) ∧
    (∀ i p2, ApiCall.memberStart i p2 ∉ (add_pool_info envA false [] "p2").1) :=
  ⟨(C7_amended true envA false [] "p1").1,
   ((C7_amended true envA false [] "p1").2 pool1 rfl).2 ⟨"m1"⟩ [] rfl,
   (((C7_amended true envA false [] "p2").2 poolEmptyMembers rfl).1 rfl).1,
   (((C7_amended true envA false [] "p2").2 poolEmptyMembers rfl).1 rfl).2⟩

/-- C8 (counterexample): for the concrete load balancer with zero listeners
and a one-entry attribute dict, rendered in detail mode, the root has two
children — the attribute child `"id: lb1"` followed by the Listener
placeholder — not exactly one. -/
theorem C8_counterexample :
    ((display_lb_info envA true lbNoListeners).2.toOption.getD
        (RTree.node "" [])).children.length = 2 ∧
    ((display_lb_info envA true lbNoListeners).2.toOption.getD
        (RTree.node "" [])).children.length ≠ 1 ∧
    ((display_lb_info envA true lbNoListeners).2.toOption.getD
        (RTree.node "" [])).children.map RTree.label =
      ["id: lb1", placeholderLabel "Listener"] := by
  refine ⟨by decide, by decide, rfl⟩

/-- C8 (amended): for every load balancer whose listeners list is empty, the
rendered root carries the attribute children of detail mode (none when detail
mode is off) followed by exactly one Listener placeholder; in particular with
detail mode off the root has exactly one child, the Listener placeholder. -/
theorem C8_amended (env : Env) (lb : LoadBalancer)
    (h : lb.listeners = []) :
    (display_lb_info env false lb).2 =
      Except.ok (RTree.node (lbLabel env lb)
        [RTree.node (placeholderLabel "Listener") []]) ∧
    (∀ details, (display_lb_info env details lb).2 =
      Except.ok (RTree.node (lbLabel env lb)
        ((if details then attrNodes lb.attrs else []) ++
         [RTree.node (placeholderLabel "Listener") []]))) := by
  constructor
  · simp [display_lb_info, create_lb_tree, h, RTree.label, RTree.children]
  · intro details
    simp [display_lb_info, create_lb_tree, h, RTree.label, RTree.children]

/-- C8 (witness): the amended statement at the concrete listener-less load
balancer. -/
theorem C8_witness :
    (display_lb_info envA false lbNoListeners).2 =
      Except.ok (RTree.node (lbLabel envA lbNoListeners)
        [RTree.node (placeholderLabel "Listener") []]) ∧
    (display_lb_info envA true lbNoListeners).2 =
      Except.ok (RTree.node (lbLabel envA lbNoListeners)
        ((if true then attrNodes lbNoListeners.attrs else []) ++
         [RTree.node (placeholderLabel "Listener") []])) :=
  ⟨(C8_amended envA lbNoListeners rfl).1,
   (C8_amended envA lbNoListeners rfl).2 true⟩

theorem mem_dkeys_dinsert (c : List (String × String)) (k v k' : String) :
    k' ∈ dkeys (dinsert c k v) ↔ k' ∈ dkeys c ∨ k' = k := by
  unfold dinsert
  by_cases h : k ∈ dkeys c
  · simp only [h, if_true]
    have hfst : (Prod.fst ∘ fun p : String × String =>
        if p.1 = k then (k, v) else p) = Prod.fst := by
      funext p
      by_cases hp : p.1 = k <;> simp [hp]
    have : dkeys ((c.map (fun p => if p.1 = k then (k, v) else p))) = dkeys c := by
      unfold dkeys
      rw [List.map_map, hfst]
    rw [this]
    constructor
    · exact Or.inl
    · rintro (hk | rfl)
      · exact hk
      · exact h
  · simp only [h, if_false]
    unfold dkeys
    simp

theorem find_replace_ne (k v k' : String) (hne : k' ≠ k) :
    ∀ c : List (String × String),
      (c.map (fun p => if p.1 = k then (k, v) else p)).find?
          (fun p => p.1 = k') =
        c.find? (fun p => p.1 = k') := by
  intro c
  induction c with
  | nil => simp
  | cons p rest ih =>
      by_cases hp : p.1 = k
      · have h1 : ¬((k, v).1 = k') := fun hk => hne hk.symm
        have h2 : ¬(p.1 = k') := fun hk => hne (hk ▸ hp)
        simp only [List.map_cons, hp, if_true, List.find?]
        simp only [h1, h2, decide_False]
        exact ih
      · simp only [List.map_cons, hp, if_false, List.find?]
        by_cases hp' : p.1 = k'
        · simp [hp']
        · simp only [hp', decide_False]
          exact ih

theorem dlookup_dinsert_ne (c : List (String × String)) (k v k' : String)
    (hne : k' ≠ k) : dlookup (dinsert c k v) k' = dlookup c k' := by
  unfold dinsert dlookup
  by_cases h : k ∈ dkeys c
  · simp only [h, if_true]
    rw [find_replace_ne k v k' hne]
  · simp only [h, if_false]
    rw [List.find?_append]
    have : ([(k, v)].find? (fun p => p.1 = k')) = none := by
      simp [hne.symm]
    rw [this]
    cases c.find? (fun p => p.1 = k') <;> rfl

theorem dlookup_some_mem_dkeys (c : List (String × String)) (k v : String)
    (h : dlookup c k = some v) : k ∈ dkeys c := by
  unfold dlookup at h
  cases hf : c.find? (fun p => p.1 = k) with
  | none => rw [hf] at h; simp at h
  | some p =>
      have hp := List.find?_some hf
      have hm := List.mem_of_find?_eq_some hf
      simp only [decide_eq_true_eq] at hp
      unfold dkeys
      exact hp ▸ List.mem_map_of_mem Prod.fst hm

theorem dlookup_foldl_preserved (k v : String) :
    ∀ (imgs : List Image) (c : List (String × String)),
      dlookup c k = some v → (∀ img ∈ imgs, img.id ≠ k) →
      dlookup (imgs.foldl (fun c img => dinsert c img.id img.name) c) k =
        some v := by
  intro imgs
  induction imgs with
  | nil => intro c hc _; simpa using hc
  | cons i rest ih =>
      intro c hc hne
      simp only [List.foldl_cons]
      exact ih _ (by
          rw [dlookup_dinsert_ne c i.id i.name k
            (fun hk => hne i (by simp) (hk.symm))]
          exact hc)
        (fun img hm => hne img (by simp [hm]))

theorem mem_dkeys_foldl :
    ∀ (imgs : List Image) (c : List (String × String)) (k : String),
      k ∈ dkeys (imgs.foldl (fun c img => dinsert c img.id img.name) c) ↔
        k ∈ dkeys c ∨ k ∈ imgs.map Image.id := by
  intro imgs
  induction imgs with
  | nil => intro c k; simp
  | cons i rest ih =>
      intro c k
      simp only [List.foldl_cons, List.map_cons, List.mem_cons]
      rw [ih, mem_dkeys_dinsert]
      tauto

theorem mem_new_iff (cache : List (String × String)) (ids : List String)
    (i : String) :
    i ∈ ids.filter (fun j => !(decide (j ∈ dkeys cache))) ↔
      i ∈ ids ∧ i ∉ dkeys cache := by
  simp [List.mem_filter]

theorem get_images_name_no_lookup (ri : List String → List Image)
    (cache : List (String × String)) (ids : List String)
    (h : ids.filter (fun i => !(decide (i ∈ dkeys cache))) = []) :
    get_images_name ri cache ids = (cache, none) := by
  unfold get_images_name
  rw [h]

theorem get_images_name_lookup (ri : List String → List Image)
    (cache : List (String × String)) (ids : List String) (x : String)
    (xs : List String)
    (h : ids.filter (fun i => !(decide (i ∈ dkeys cache))) = x :: xs) :
    get_images_name ri cache ids =
      ((ri (x :: xs)).foldl (fun c img => dinsert c img.id img.name) cache,
       some (x :: xs)) := by
  unfold get_images_name
  rw [h]

/-- C5 (counterexample): against an image service holding no images, two
successive `get_images_name` calls for the same id `i1` on the shared cache
each issue a batched lookup containing `i1` — two lookups for that id across
the two calls, not at most one: a lookup that returns no pair for an id
leaves the cache without that id, so the id is re-queried. -/
theorem C5_counterexample :
    (get_images_name emptyImageLookup [] ["i1"]).2 = some ["i1"] ∧
    (get_images_name emptyImageLookup
      (get_images_name emptyImageLookup [] ["i1"]).1 ["i1"]).2 = some ["i1"] ∧
    countLookupsFor "i1"
      [(get_images_name emptyImageLookup [] ["i1"]).2,
       (get_images_name emptyImageLookup
         (get_images_name emptyImageLookup [] ["i1"]).1 ["i1"]).2] = 2 ∧
    ¬ (countLookupsFor "i1"
      [(get_images_name emptyImageLookup [] ["i1"]).2,
       (get_images_name emptyImageLookup
         (get_images_name emptyImageLookup [] ["i1"]).1 ["i1"]).2] ≤ 1) :=
  ⟨rfl, rfl, rfl, by decide⟩

/-- C5 (amended): the batched lookup, when issued, is for exactly the subset
of the requested ids not already cached (and only a non-empty subset is ever
looked up; no lookup is issued precisely when every requested id is cached);
and if an id requested in the first of two successive calls is either already
cached or returned by the first call's batched lookup, then the second call's
batched lookup — if any — does not contain that id. Ids the lookup does not
return stay uncached and are re-queried. -/
theorem C5_amended (ri : List String → List Image)
    (cache : List (String × String)) (ids : List String) :
    (∀ l, (get_images_name ri cache ids).2 = some l →
      l = ids.filter (fun i => !(decide (i ∈ dkeys cache))) ∧ l ≠ []) ∧
    ((get_images_name ri cache ids).2 = none ↔
      ids.filter (fun i => !(decide (i ∈ dkeys cache))) = []) ∧
    (∀ id2, (id2 ∈ dkeys cache ∨
        id2 ∈ (ri (ids.filter (fun i =>
          !(decide (i ∈ dkeys cache))))).map Image.id) →
      ∀ l, (get_images_name ri (get_images_name ri cache ids).1 ids).2 =
          some l → id2 ∉ l) := by
  cases hf : ids.filter (fun i => !(decide (i ∈ dkeys cache))) with
  | nil =>
      rw [get_images_name_no_lookup ri cache ids hf]
      refine ⟨by simp, by simp, ?_⟩
      intro id2 hid l hsnd
      rw [get_images_name_no_lookup ri cache ids hf] at hsnd
      simp at hsnd
  | cons x xs =>
      rw [get_images_name_lookup ri cache ids x xs hf]
      refine ⟨?_, by simp, ?_⟩
      · intro l hsnd
        simp only [Option.some.injEq] at hsnd
        exact ⟨hsnd.symm, by simp [← hsnd]⟩
      · intro id2 hid l hsnd
        set cache' := (ri (x :: xs)).foldl
          (fun c img => dinsert c img.id img.name) cache with hc
        have hmem : id2 ∈ dkeys cache' := by
          rw [hc, mem_dkeys_foldl]
          rcases hid with hid | hid
          · exact Or.inl hid
          · exact Or.inr hid
        intro hl
        cases hf2 : ids.filter (fun i => !(decide (i ∈ dkeys cache'))) with
        | nil =>
            rw [get_images_name_no_lookup ri cache' ids hf2] at hsnd
            simp at hsnd
        | cons y ys =>
            rw [get_images_name_lookup ri cache' ids y ys hf2] at hsnd
            simp only [Option.some.injEq] at hsnd
            rw [← hsnd, ← hf2] at hl
            rw [mem_new_iff cache' ids id2] at hl
            exact hl.2 hmem

/-- C5 (witness): the amended statement at the concrete one-image service:
the first call for id `b` looks up exactly `[b]`, and after it the id is
cached so the second call issues no lookup containing it. -/
theorem C5_witness :
    (["b"] : List String) =
      (["b"] : List String).filter
        (fun i => !(decide (i ∈ dkeys ([] : List (String × String))))) ∧
    (["b"] : List String) ≠ [] :=
  (C5_amended imageLookupB [] ["b"]).1 ["b"] rfl

/-- C6: assuming the image service returns only images whose ids were in the
requested batch (the `list_images` collaborator contract — the batch filter
`id=image_ids`), each `get_images_name` call — the only code that writes the
cache — only adds entries for requested ids that were not already cached,
keeps every existing key, and never changes the value of an entry once
populated. -/
theorem C6_cache_monotone (ri : List String → List Image)
    (cache : List (String × String)) (ids : List String)
    (h : ∀ img ∈ ri (ids.filter (fun i => !(decide (i ∈ dkeys cache)))),
      img.id ∈ ids.filter (fun i => !(decide (i ∈ dkeys cache)))) :
    (∀ k, k ∈ dkeys cache → k ∈ dkeys (get_images_name ri cache ids).1) ∧
    (∀ k v, dlookup cache k = some v →
      dlookup (get_images_name ri cache ids).1 k = some v) ∧
    (∀ k, k ∈ dkeys (get_images_name ri cache ids).1 →
      k ∈ dkeys cache ∨ (k ∈ ids ∧ k ∉ dkeys cache)) := by
  cases hf : ids.filter (fun i => !(decide (i ∈ dkeys cache))) with
  | nil =>
      rw [get_images_name_no_lookup ri cache ids hf]
      exact ⟨fun k hk => hk, fun k v hv => hv, fun k hk => Or.inl hk⟩
  | cons x xs =>
      rw [hf] at h
      rw [get_images_name_lookup ri cache ids x xs hf]
      refine ⟨?_, ?_, ?_⟩
      · intro k hk
        rw [mem_dkeys_foldl]
        exact Or.inl hk
      · intro k v hv
        refine dlookup_foldl_preserved k v (ri (x :: xs)) cache hv ?_
        intro img hm heq
        have := h img hm
        rw [← hf] at this
        rw [mem_new_iff] at this
        exact this.2 (heq ▸ dlookup_some_mem_dkeys cache k v hv)
      · intro k hk
        rw [mem_dkeys_foldl] at hk
        rcases hk with hk | hk
        · exact Or.inl hk
        · right
          rcases List.mem_map.mp hk with ⟨img, hm, hid⟩
          have := h img hm
          rw [← hf, mem_new_iff] at this
          exact hid ▸ this

/-- C6 (witness): the statement at a concrete environment — a cache already
holding `a`, a request for `a` and `b`, and a service returning exactly the
uncached id `b`. -/
theorem C6_witness :
    (∀ k, k ∈ dkeys [("a", "x")] →
      k ∈ dkeys (get_images_name imageLookupB [("a", "x")] ["a", "b"]).1) ∧
    (∀ k v, dlookup [("a", "x")] k = some v →
      dlookup (get_images_name imageLookupB [("a", "x")] ["a", "b"]).1 k =
        some v) ∧
    (∀ k, k ∈ dkeys (get_images_name imageLookupB [("a", "x")] ["a", "b"]).1 →
      k ∈ dkeys [("a", "x")] ∨ (k ∈ ["a", "b"] ∧ k ∉ dkeys [("a", "x")])) :=
  C6_cache_monotone imageLookupB [("a", "x")] ["a", "b"] (by decide)

/-- C9: `main.py` line 45 imports `ProcessingContext` from the
`loadbalancer_info` module, whose module level binds only `LoadBalancerInfo`
and `AmphoraInfo`, so the import of `main` raises `ImportError` before any
statement of `main` runs; and even past the import, `main()` constructs
`LoadBalancerInfo(lb, context)` and `AmphoraInfo(lb, context)` with two
positional arguments while their `__init__` requires four besides `self` —
so no invocation of the CLI entry point ever builds a tree. -/
theorem C9_import_error :
    loadbalancer_info_import_fails = true ∧
    "ProcessingContext" ∈ main_imports_from_loadbalancer_info ∧
    "ProcessingContext" ∉ loadbalancer_info_module_defs ∧
    mainConstructorArgCount ≠ loadBalancerInfoInitParams.length := by
  refine ⟨rfl, by decide, by decide, by decide⟩

/-- C10: the `--name` filter keeps a fetched load balancer exactly when the
filter string occurs as a contiguous substring of the load balancer's name
(Python `args.name in lb.name` — partial containment, not equality), and with
no name filter every fetched load balancer is kept. -/
theorem C10_name_filter :
    (∀ n lbs lb, lb ∈ filter_lbs_by_name (some n) lbs ↔
      (lb ∈ lbs ∧ strContains lb.name n = true)) ∧
    (∀ lbs, filter_lbs_by_name none lbs = lbs) := by
  constructor
  · intro n lbs lb
    by_cases hn : n = ""
    · subst hn
      simp [filter_lbs_by_name, truthyStr, strContains, List.nil_infix]
    · simp [filter_lbs_by_name, truthyStr, hn, List.mem_filter, strContains]
  · intro lbs
    simp [filter_lbs_by_name, truthyStr]
